import Mathlib

/-!
Shallow embedding of the URL-shortener service in `app.py`
(Flask route handlers `create_shorturl`, `get_shorturl_stats`,
`redirect_to_original`, and the helpers `generate_shortcode`,
`validate_url`, `SHORTCODE_RE`, `to_iso_z`).

Modelling choices:
* Timestamps handled by the route logic are UTC instants modelled as `Int`
  (epoch seconds); `datetime` comparison and `timedelta(minutes=v)` become
  `Int` comparison and `+ 60 * v`.  The ISO-8601 string formatter
  `to_iso_z` is modelled separately over a field-level `PyDateTime`.
* JSON scalars arriving in a request body are modelled by `JVal`, with
  Python truthiness (`jTruthy`), Python `int(...)` conversion (`pyToInt`,
  which truncates floats toward zero) and Python `str(...)` (`pyStr`).
* The SQLAlchemy store is a pair of lists (`DB`); `query.filter_by(...)
  .first()` is `List.find?`, a successful `commit` of an added row appends
  it, and the outcome of `db.session.commit()` is an explicit
  `CommitResult` input so that `IntegrityError` / generic failures (and
  the handlers' `rollback` paths) are represented.
* `random.choices` inside `generate_shortcode` is abstracted by a draw
  stream `gen : Nat → Nat → String`: `gen i l` is the candidate returned
  by the i-th call (counted from 0) to `generate_shortcode` when asked
  for length `l`.  `generate_shortcode` itself is modelled from a stream
  of alphabet indices, showing every real draw of length `l` has exactly
  `l` characters (hence is nonempty).
-/

namespace Shortener

/-- A JSON scalar value as decoded by Flask's `request.get_json`.  A
fractional JSON literal is an exact decimal, modelled as
`float m e ≘ m · 10⁻ᵉ` (e.g. `2.5` is `float 25 1`). -/
inductive JVal where
  | str (s : String)
  | int (n : Int)
  | float (m : Int) (e : Nat)
  | bool (b : Bool)
  | null
  deriving DecidableEq, Repr

/-- Python truthiness of a JSON scalar (`if x:`). -/
def jTruthy : JVal → Bool
  | .str s => s != ""
  | .int n => n != 0
  | .float m _ => m != 0
  | .bool b => b
  | .null => false

/-- Leading- and trailing-whitespace removal on a character list. -/
def trimChars (l : List Char) : List Char :=
  ((l.dropWhile Char.isWhitespace).reverse.dropWhile Char.isWhitespace).reverse

/-- Python `str.strip()` (whitespace from both ends). -/
def pyStrip (s : String) : String := ⟨trimChars s.data⟩

/-- Python `str.startswith(pre)`. -/
def pyStartsWith (s pre : String) : Bool := pre.data.isPrefixOf s.data

/-- Value of a nonempty digit string. -/
def digitsToNat (l : List Char) : Nat :=
  l.foldl (fun a c => a * 10 + (c.toNat - 48)) 0

/-- Parse of an optionally signed decimal integer literal (the accepting
core of Python `int(str)`); `none` models a `ValueError`. -/
def parseIntChars : List Char → Option Int
  | [] => none
  | '+' :: rest =>
      if rest ≠ [] ∧ rest.all Char.isDigit then some (digitsToNat rest)
      else none
  | '-' :: rest =>
      if rest ≠ [] ∧ rest.all Char.isDigit then some (-(digitsToNat rest : Int))
      else none
  | l =>
      if l.all Char.isDigit then some (digitsToNat l) else none

/-- Python `int(x)` applied to a JSON-decoded scalar: identity on ints,
truncation toward zero on floats, 0/1 on bools, decimal parse of a
stripped string, failure (`TypeError`/`ValueError`) otherwise. -/
def pyToInt : JVal → Option Int
  | .int n => some n
  | .float m e => some (m.tdiv ((10 : Int) ^ e))
  | .bool b => some (if b then 1 else 0)
  | .str s => parseIntChars (trimChars s.data)
  | .null => none

/-- Python `str(x)` on a JSON scalar.  (The `float` case approximates
`repr`: like any Python float repr it contains a non-alphanumeric
character, which is all the handlers ever depend on.) -/
def pyStr : JVal → String
  | .str s => s
  | .int n => toString n
  | .float m e => toString m ++ "e-" ++ toString e
  | .bool b => if b then "True" else "False"
  | .null => "None"

/-- `validate_url` from `app.py`: the value must be a `str` whose stripped
form starts with `http://` or `https://`. -/
def validate_url : JVal → Bool
  | .str s =>
      let t := pyStrip s
      pyStartsWith t "http://" || pyStartsWith t "https://"
  | _ => false

/-- `SHORTCODE_RE = re.compile(r'^[A-Za-z0-9]{4,64}$')`, as a decidable
match on a whole string. -/
def SHORTCODE_RE (s : String) : Bool :=
  decide (4 ≤ s.data.length) && decide (s.data.length ≤ 64) &&
    s.data.all Char.isAlphanum

/-- `ALPHABET = string.ascii_letters + string.digits` (62 symbols). -/
def ALPHABET : List Char :=
  "abcdefghijklmnopqrstuvwxyzABCDEFGHIJKLMNOPQRSTUVWXYZ0123456789".data

/-- `generate_shortcode(length)`: `length` independent uniform draws from
`ALPHABET`; the randomness source is a stream of alphabet indices. -/
def generate_shortcode (randChoice : Nat → Fin ALPHABET.length)
    (length : Nat) : String :=
  ⟨(List.range length).map fun i => ALPHABET.get (randChoice i)⟩

/-- A row of the `shorturls` table. -/
structure ShortURL where
  shortcode : String
  original_url : String
  created_at : Int
  expiry : Int
  deriving DecidableEq, Repr

/-- A row of the `clicks` table. -/
structure Click where
  shortcode : String
  timestamp : Int
  referrer : Option String
  location : Option String
  ip : Option String
  user_agent : Option String
  deriving DecidableEq, Repr

/-- The persistent store: both tables, in insertion order. -/
structure DB where
  shorturls : List ShortURL
  clicks : List Click
  deriving DecidableEq, Repr

/-- `ShortURL.query.filter_by(shortcode=code).first()`. -/
def findShort (db : DB) (code : String) : Option ShortURL :=
  db.shorturls.find? fun s => s.shortcode == code

/-- Whether a candidate shortcode is already registered (the existence
pre-checks in `create_shorturl`). -/
def occupied (db : DB) (c : String) : Bool :=
  (findShort db c).isSome

/-- A request body: the JSON object as an association list. -/
abbrev ReqBody := List (String × JVal)

/-- `data.get(key)`: `none` models Python `None` for a missing key. -/
def bget (d : ReqBody) (k : String) : Option JVal :=
  (d.find? fun p => p.1 == k).map (·.2)

/-- Outcome of `db.session.commit()`: success, a uniqueness-constraint
violation (`IntegrityError`), or any other storage fault. -/
inductive CommitResult where
  | ok
  | integrityError
  | otherError
  deriving DecidableEq, Repr

/-- The possible responses of `POST /shorturls`, one constructor per
`return` site of `create_shorturl` (bodies are `{"error": msg}` JSON;
only the semantic payload is modelled). -/
inductive CreateResp where
  | missingBody
  | invalidUrl
  | invalidValidity
  | invalidShortcode
  | shortcodeInUse
  | shortcodeCollision
  | createError
  | allocationExhausted
  | created (shortLink : String) (expiry : Int)
  deriving DecidableEq, Repr

/-- HTTP status of each `create_shorturl` response. -/
def CreateResp.status : CreateResp → Nat
  | .missingBody => 400
  | .invalidUrl => 400
  | .invalidValidity => 400
  | .invalidShortcode => 400
  | .shortcodeInUse => 409
  | .shortcodeCollision => 409
  | .createError => 500
  | .allocationExhausted => 500
  | .created _ _ => 201

/-- The inner `for _ in range(k)` loop of the allocation retry: draw and
test up to `k` candidates of length `len`, starting at global draw index
`ctr`.  Returns the Python `shortcode` variable set by the loop (if any)
and the next draw index. -/
def tryAttempts (db : DB) (gen : Nat → Nat → String) (len : Nat) :
    Nat → Nat → Option String × Nat
  | ctr, 0 => (none, ctr)
  | ctr, k + 1 =>
      let candidate := gen ctr len
      if occupied db candidate then tryAttempts db gen len (ctr + 1) k
      else (some candidate, ctr + 1)

/-- One iteration of the outer `for attempt_len in (6, 7, 8)` loop:
run the inner loop, keeping the previous value of the Python `shortcode`
variable when the inner loop sets nothing. -/
def stepLen (db : DB) (gen : Nat → Nat → String) (len : Nat)
    (st : Option String × Nat) : Option String × Nat :=
  match tryAttempts db gen len st.2 6 with
  | (some c, ctr) => (some c, ctr)
  | (none, ctr) => (st.1, ctr)

/-- Python truthiness of the `shortcode` variable (`None` and `""` are
both falsy). -/
def pyTruthyOptStr : Option String → Bool
  | some c => c != ""
  | none => false

/-- The whole nested retry loop of `create_shorturl` (lengths 6, 7, 8 with
up to 6 attempts each, breaking out as soon as `shortcode` is truthy). -/
def allocate (db : DB) (gen : Nat → Nat → String) : Option String × Nat :=
  let st := stepLen db gen 6 (none, 0)
  if pyTruthyOptStr st.1 then st
  else
    let st' := stepLen db gen 7 st
    if pyTruthyOptStr st'.1 then st'
    else stepLen db gen 8 st'

/-- The three early-return errors of the shortcode-selection step. -/
inductive ScErr where
  | invalidShortcode
  | shortcodeInUse
  | allocationExhausted
  deriving DecidableEq, Repr

/-- The response each selection error translates to. -/
def ScErr.toResp : ScErr → CreateResp
  | .invalidShortcode => .invalidShortcode
  | .shortcodeInUse => .shortcodeInUse
  | .allocationExhausted => .allocationExhausted

/-- The `if not shortcode:` fallback: one final draw of length 10; if it
is occupied, the request fails with 500. -/
def finalAttempt (db : DB) (gen : Nat → Nat → String) (ctr : Nat) :
    Except ScErr String :=
  let candidate := gen ctr 10
  if occupied db candidate then .error .allocationExhausted
  else .ok candidate

/-- The shortcode-selection part of `create_shorturl`: the custom
shortcode branch (strip, format check, uniqueness pre-check) or the
auto-allocation branch. -/
def chooseShortcode (db : DB) (data : ReqBody) (gen : Nat → Nat → String) :
    Except ScErr String :=
  let custom := (bget data "shortcode").getD .null
  if jTruthy custom then
    let c := pyStrip (pyStr custom)
    if !SHORTCODE_RE c then .error .invalidShortcode
    else if occupied db c then .error .shortcodeInUse
    else .ok c
  else
    match allocate db gen with
    | (some c, ctr) => if c == "" then finalAttempt db gen ctr else .ok c
    | (none, ctr) => finalAttempt db gen ctr

/-- `HOSTNAME.rstrip('/')` followed by `/{shortcode}`. -/
def shortLinkOf (code : String) : String :=
  "http://localhost:5000/" ++ code

/-- The string payload of a validated `url` field (validation guarantees
it is a `str`). -/
def jStrVal : JVal → String
  | .str s => s
  | _ => ""

/-- `POST /shorturls` (`create_shorturl` in `app.py`).  `body` is the
parsed JSON (`none` when parsing failed), `now` the value of
`datetime.utcnow()` at the handler, `commit` the outcome of the final
`db.session.commit()`.  Returns the response and the resulting store. -/
def create_shorturl (db : DB) (body : Option ReqBody)
    (gen : Nat → Nat → String) (now : Int) (commit : CommitResult) :
    CreateResp × DB :=
  match body with
  | none => (.missingBody, db)
  | some data =>
    if data.isEmpty then (.missingBody, db)
    else
      match bget data "url" with
      | none => (.invalidUrl, db)
      | some uv =>
        if !(jTruthy uv && validate_url uv) then (.invalidUrl, db)
        else
          match pyToInt ((bget data "validity").getD (.int 30)) with
          | none => (.invalidValidity, db)
          | some validity =>
            if validity ≤ 0 then (.invalidValidity, db)
            else
              match chooseShortcode db data gen with
              | .error r => (r.toResp, db)
              | .ok shortcode =>
                let created_at := now
                let expiry := created_at + 60 * validity
                let short : ShortURL :=
                  ⟨shortcode, jStrVal uv, created_at, expiry⟩
                match commit with
                | .ok => (.created (shortLinkOf shortcode) expiry,
                          { db with shorturls := db.shorturls ++ [short] })
                | .integrityError => (.shortcodeCollision, db)
                | .otherError => (.createError, db)

/-- The headers of an inbound redirect request that the handler reads
(`Referer`, `Referrer`, `X-Forwarded-For`, `User-Agent`) and the WSGI
`remote_addr`; `none` models an absent header. -/
structure ReqCtx where
  referer : Option String
  referrer : Option String
  xff : Option String
  remote_addr : Option String
  user_agent : Option String
  deriving DecidableEq, Repr

/-- Python `a or b` on two optional strings (`None` and `""` are falsy). -/
def pyOrStr (a b : Option String) : Option String :=
  match a with
  | some s => if s != "" then some s else b
  | none => b

/-- The possible responses of `GET /{shortcode}`. -/
inductive RedirResp where
  | notFound
  | gone
  | redirect302 (url : String)
  deriving DecidableEq, Repr

/-- HTTP status of each redirect response. -/
def RedirResp.status : RedirResp → Nat
  | .notFound => 404
  | .gone => 410
  | .redirect302 _ => 302

/-- `GET /{shortcode}` (`redirect_to_original` in `app.py`).  `now` is
`datetime.utcnow()` at the handler, `commit` the outcome of the click
`db.session.commit()` (a failure is rolled back and swallowed). -/
def redirect_to_original (db : DB) (code : String) (now : Int)
    (ctx : ReqCtx) (commit : CommitResult) : RedirResp × DB :=
  match findShort db code with
  | none => (.notFound, db)
  | some s =>
    if s.expiry < now then (.gone, db)
    else
      let referrer := pyOrStr ctx.referer ctx.referrer
      let ip := match ctx.xff with
                | some v => some v
                | none => ctx.remote_addr
      let click : Click :=
        ⟨code, now, referrer, some "unknown", ip, ctx.user_agent⟩
      match commit with
      | .ok => (.redirect302 s.original_url,
                { db with clicks := db.clicks ++ [click] })
      | _ => (.redirect302 s.original_url, db)

/-- One entry of the `clickData` array in the stats response (the
`location` field is defaulted by `c.location or "unknown"`). -/
structure ClickOut where
  timestamp : Int
  referrer : Option String
  location : String
  ip : Option String
  user_agent : Option String
  deriving DecidableEq, Repr

/-- The 200 body of `GET /shorturls/{shortcode}`. -/
structure StatsResp where
  clicks : Nat
  originalURL : String
  createdAt : Int
  expiry : Int
  clickData : List ClickOut
  deriving DecidableEq, Repr

/-- The possible responses of `GET /shorturls/{shortcode}`. -/
inductive StatsResult where
  | notFound
  | ok (r : StatsResp)
  deriving DecidableEq, Repr

/-- `Click.query...order_by(Click.timestamp.asc())`: a stable sort of the
matching rows by timestamp. -/
def clicksSorted (db : DB) (code : String) : List Click :=
  (db.clicks.filter fun c => c.shortcode == code).mergeSort
    fun a b => decide (a.timestamp ≤ b.timestamp)

/-- Formatting of one click row for the response. -/
def clickEntry (c : Click) : ClickOut :=
  ⟨c.timestamp, c.referrer,
   (match c.location with
    | some l => if l != "" then l else "unknown"
    | none => "unknown"),
   c.ip, c.user_agent⟩

/-- `GET /shorturls/{shortcode}` (`get_shorturl_stats` in `app.py`). -/
def get_shorturl_stats (db : DB) (code : String) : StatsResult :=
  match findShort db code with
  | none => .notFound
  | some s =>
    let click_list := (clicksSorted db code).map clickEntry
    .ok ⟨click_list.length, s.original_url, s.created_at, s.expiry,
         click_list⟩

/-!  The ISO-8601 formatter `to_iso_z`.  A Python `datetime` is a tuple
of calendar fields plus a `tzinfo`; in this program the only `tzinfo`
values ever attached are `None` (naive, e.g. values read back from the
SQLite `DateTime` columns) and `timezone.utc`, so the `tzinfo` slot is
modelled by a Bool. -/

/-- A Python `datetime` as used by this program. -/
structure PyDateTime where
  year : Nat
  month : Nat
  day : Nat
  hour : Nat
  minute : Nat
  second : Nat
  microsecond : Nat
  utc : Bool
  deriving DecidableEq, Repr

/-- The decimal digit character of `n % 10`. -/
def digitChar (n : Nat) : Char := Char.ofNat (48 + n % 10)

/-- Decimal digits of a number, most significant first (fuelled). -/
def natDigitsAux : Nat → Nat → List Char
  | 0, _ => []
  | fuel + 1, n =>
      if n < 10 then [digitChar n]
      else natDigitsAux fuel (n / 10) ++ [digitChar n]

/-- Decimal digits of a number, most significant first. -/
def natDigits (n : Nat) : List Char := natDigitsAux (n + 1) n

/-- Zero-padded fixed-width decimal rendering (Python `%0Nd`). -/
def padNum (w n : Nat) : List Char :=
  List.replicate (w - (natDigits n).length) '0' ++ natDigits n

/-- The date/time part of `datetime.isoformat()`:
`YYYY-MM-DDTHH:MM:SS[.ffffff]`. -/
def isoCore (dt : PyDateTime) : List Char :=
  padNum 4 dt.year ++ ['-'] ++ padNum 2 dt.month ++ ['-'] ++
  padNum 2 dt.day ++ ['T'] ++ padNum 2 dt.hour ++ [':'] ++
  padNum 2 dt.minute ++ [':'] ++ padNum 2 dt.second ++
  (if dt.microsecond == 0 then [] else '.' :: padNum 6 dt.microsecond)

/-- The UTC offset suffix `+00:00` produced by `isoformat()` on an aware
UTC datetime. -/
def utcSuffix : List Char := ['+', '0', '0', ':', '0', '0']

/-- `datetime.isoformat()`: the core followed by the offset suffix when
the value is timezone-aware (UTC in this program), nothing when naive. -/
def isoformat (dt : PyDateTime) : List Char :=
  isoCore dt ++ (if dt.utc then utcSuffix else [])

/-- Python `str.replace(pat, rep)`: leftmost, non-overlapping (fuelled;
the fuel is the string length, enough because `pat` is nonempty at every
use). -/
def replaceAllAux (pat rep : List Char) : Nat → List Char → List Char
  | _, [] => []
  | 0, s => s
  | fuel + 1, c :: rest =>
      if pat.isPrefixOf (c :: rest) then
        rep ++ replaceAllAux pat rep fuel ((c :: rest).drop pat.length)
      else c :: replaceAllAux pat rep fuel rest

/-- Python `s.replace(pat, rep)`. -/
def replaceAll (pat rep s : List Char) : List Char :=
  replaceAllAux pat rep s.length s

/-- `to_iso_z` from `app.py`: attach `timezone.utc` when naive
(`dt.replace(tzinfo=timezone.utc)`), convert to UTC
(`astimezone(timezone.utc)`, the identity on an already-UTC value),
format, and replace `+00:00` with `Z`. -/
def to_iso_z (dt : PyDateTime) : String :=
  ⟨replaceAll utcSuffix ['Z'] (isoformat { dt with utc := true })⟩

/-! Concrete fixtures used to instantiate the theorems below. -/

/-- A store holding one live link. -/
def dbEx : DB := ⟨[⟨"abcd", "http://x.com", 0, 100⟩], []⟩

/-- An empty store. -/
def dbEmpty : DB := ⟨[], []⟩

/-- A request context with only a remote address. -/
def ctxEx : ReqCtx := ⟨none, none, none, some "1.2.3.4", none⟩

/-- A deterministic draw stream: the i-th draw of length `l` is `l`
copies of the i-th lowercase letter. -/
def genEx : Nat → Nat → String :=
  fun i l => ⟨List.replicate l (Char.ofNat (97 + i % 26))⟩

/-- A store holding one link and one click on it. -/
def dbClick : DB :=
  ⟨[⟨"abcd", "http://x.com", 0, 100⟩],
   [⟨"abcd", 5, none, none, none, none⟩]⟩

/-- The i-th candidate the auto-allocation loop would examine: draws
0–5 have length 6, draws 6–11 length 7, draws 12–17 length 8, and the
final fallback draw 18 has length 10. -/
def drawAt (gen : Nat → Nat → String) (i : Nat) : String :=
  gen i (if i < 6 then 6 else if i < 12 then 7 else if i < 18 then 8 else 10)

end Shortener

namespace Shortener

/-! Helper lemmas. -/

/-- A validated URL value is truthy (an empty string never passes
`validate_url`). -/
theorem validate_url_truthy (v : JVal) (h : validate_url v = true) :
    jTruthy v = true := by
  cases v with
  | str s =>
    simp only [jTruthy]
    by_contra hne
    have hs : s = "" := by simpa using hne
    subst hs
    exact absurd h (by decide)
  | int n => simp [validate_url] at h
  | float q => simp [validate_url] at h
  | bool b => simp [validate_url] at h
  | null => simp [validate_url] at h

/-- A body with a bound key is not the empty dict. -/
theorem bget_isEmpty {d : ReqBody} {k : String} {v : JVal}
    (h : bget d k = some v) : d.isEmpty = false := by
  cases d with
  | nil => simp [bget] at h
  | cons p t => rfl

/-- Reduction of `create_shorturl` past the url and validity checks. -/
theorem create_reduce (db : DB) (data : ReqBody)
    (gen : Nat → Nat → String) (now : Int) (commit : CommitResult)
    (uv : JVal) (v : Int)
    (hurl : bget data "url" = some uv)
    (hu : validate_url uv = true)
    (hv : pyToInt ((bget data "validity").getD (.int 30)) = some v)
    (hvpos : 0 < v) :
    create_shorturl db (some data) gen now commit =
      match chooseShortcode db data gen with
      | .error r => (r.toResp, db)
      | .ok shortcode =>
        match commit with
        | .ok => (.created (shortLinkOf shortcode) (now + 60 * v),
                  { db with shorturls :=
                      db.shorturls ++ [⟨shortcode, jStrVal uv, now, now + 60 * v⟩] })
        | .integrityError => (.shortcodeCollision, db)
        | .otherError => (.createError, db) := by
  have hne : data.isEmpty = false := bget_isEmpty hurl
  have ht : jTruthy uv = true := validate_url_truthy uv hu
  simp only [create_shorturl, hne, hurl, ht, hu, hv, Bool.and_self,
    Bool.not_true, Bool.false_eq_true, if_false]
  rw [if_neg (by omega)]

/-- A selection error never carries a created payload. -/
theorem ScErr.toResp_ne_created (x : ScErr) (l : String) (e : Int) :
    x.toResp ≠ .created l e := by
  cases x <;> exact fun h => nomatch h

/-- Reduction of the custom-shortcode branch of the selection step. -/
theorem chooseShortcode_custom (db : DB) (data : ReqBody)
    (gen : Nat → Nat → String) (sv : JVal)
    (hsc : bget data "shortcode" = some sv)
    (hst : jTruthy sv = true) :
    chooseShortcode db data gen =
      (if SHORTCODE_RE (pyStrip (pyStr sv)) = false then
        .error ScErr.invalidShortcode
      else if occupied db (pyStrip (pyStr sv)) then
        .error ScErr.shortcodeInUse
      else .ok (pyStrip (pyStr sv))) := by
  simp only [chooseShortcode, hsc, Option.getD_some, hst, if_true,
    Bool.not_eq_true']

end Shortener

namespace Shortener

/-- C1: on a live shortcode the redirect response is a 302 to the stored
destination URL for every outcome of the click-recording commit; a
storage failure there is rolled back and swallowed and never changes the
redirect response. -/
theorem redirect_ignores_click_failure (db : DB) (code : String)
    (now : Int) (ctx : ReqCtx) (s : ShortURL)
    (h : findShort db code = some s) (hlive : now ≤ s.expiry) :
    ∀ commit : CommitResult,
      (redirect_to_original db code now ctx commit).1 =
        .redirect302 s.original_url := by
  intro commit
  simp only [redirect_to_original, h]
  rw [if_neg (by omega)]
  cases commit <;> rfl

/-- Witness for C1: concrete live link, failing commit, still a 302. -/
theorem redirect_ignores_click_failure_witness :
    (redirect_to_original dbEx "abcd" 50 ctxEx .otherError).1 =
      .redirect302 "http://x.com" :=
  redirect_ignores_click_failure dbEx "abcd" 50 ctxEx
    ⟨"abcd", "http://x.com", 0, 100⟩ (by decide) (by decide) .otherError

/-- C2: a known shortcode past its expiry (`now > expiresAt`) yields 410
with the store (hence the click history) unchanged; while
`now ≤ expiresAt` the link is live and the redirect proceeds. -/
theorem redirect_expiry_boundary (db : DB) (code : String) (now : Int)
    (ctx : ReqCtx) (commit : CommitResult) (s : ShortURL)
    (h : findShort db code = some s) :
    (s.expiry < now →
       redirect_to_original db code now ctx commit = (.gone, db)) ∧
    (now ≤ s.expiry →
       (redirect_to_original db code now ctx commit).1 =
         .redirect302 s.original_url) ∧
    RedirResp.gone.status = 410 := by
  refine ⟨fun hexp => ?_, fun hlive => ?_, rfl⟩
  · simp only [redirect_to_original, h]
    rw [if_pos hexp]
  · simp only [redirect_to_original, h]
    rw [if_neg (by omega)]
    cases commit <;> rfl

/-- Witness for C2: redirect at `now = 101 > expiry = 100` is 410 and
leaves the store unchanged. -/
theorem redirect_expiry_boundary_witness :
    redirect_to_original dbEx "abcd" 101 ctxEx .ok = (.gone, dbEx) :=
  (redirect_expiry_boundary dbEx "abcd" 101 ctxEx .ok
    ⟨"abcd", "http://x.com", 0, 100⟩ (by decide)).1 (by decide)

/-- C3: creating with a custom shortcode that is already registered
yields 409 — at the pre-check, or at commit time through the store's
uniqueness violation (`IntegrityError`) — and returns the store
unchanged, so the existing mapping for that shortcode is untouched. -/
theorem create_duplicate_conflict (db : DB) (data : ReqBody)
    (gen : Nat → Nat → String) (now : Int) (commit : CommitResult)
    (uv sv : JVal) (v : Int)
    (hurl : bget data "url" = some uv)
    (hu : validate_url uv = true)
    (hv : pyToInt ((bget data "validity").getD (.int 30)) = some v)
    (hvpos : 0 < v)
    (hsc : bget data "shortcode" = some sv)
    (hst : jTruthy sv = true)
    (hre : SHORTCODE_RE (pyStrip (pyStr sv)) = true) :
    (occupied db (pyStrip (pyStr sv)) = true →
       create_shorturl db (some data) gen now commit =
         (.shortcodeInUse, db))
    ∧ (occupied db (pyStrip (pyStr sv)) = false →
       create_shorturl db (some data) gen now .integrityError =
         (.shortcodeCollision, db))
    ∧ CreateResp.shortcodeInUse.status = 409
    ∧ CreateResp.shortcodeCollision.status = 409 := by
  refine ⟨fun hocc => ?_, fun hfree => ?_, rfl, rfl⟩
  · rw [create_reduce db data gen now commit uv v hurl hu hv hvpos,
      chooseShortcode_custom db data gen sv hsc hst,
      if_neg (by simp [hre]), if_pos hocc]
    rfl
  · rw [create_reduce db data gen now .integrityError uv v hurl hu hv hvpos,
      chooseShortcode_custom db data gen sv hsc hst,
      if_neg (by simp [hre]), if_neg (by simp [hfree])]

/-- Witness for C3: re-creating `"abcd"` over `dbEx` answers 409 and
leaves the store as it was. -/
theorem create_duplicate_conflict_witness :
    create_shorturl dbEx
        (some [("url", JVal.str "http://y.com"), ("shortcode", JVal.str "abcd")])
        genEx 0 .ok =
      (.shortcodeInUse, dbEx) :=
  (create_duplicate_conflict dbEx
      [("url", JVal.str "http://y.com"), ("shortcode", JVal.str "abcd")]
      genEx 0 .ok (.str "http://y.com") (.str "abcd") 30
      (by decide) (by decide) (by decide) (by decide) (by decide)
      (by decide) (by decide)).1 (by decide)

/-- C5: every successful creation satisfies
`expiry = created_at + 60 * validity` seconds — validity minutes exactly,
taken from the body and defaulting to 30 — hence `expiry > created_at`. -/
theorem create_expiry_exact (db : DB) (data : ReqBody)
    (gen : Nat → Nat → String) (now : Int) (uv : JVal)
    (hurl : bget data "url" = some uv)
    (hu : validate_url uv = true) :
    (bget data "validity" = none →
      ∀ link exp db',
        create_shorturl db (some data) gen now .ok =
          (.created link exp, db') →
        exp = now + 60 * 30 ∧ now < exp)
    ∧ (∀ v : Int, bget data "validity" = some (.int v) → 0 < v →
      ∀ link exp db',
        create_shorturl db (some data) gen now .ok =
          (.created link exp, db') →
        exp = now + 60 * v ∧ now < exp) := by
  constructor
  · intro hnone link exp db' heq
    have hv : pyToInt ((bget data "validity").getD (.int 30)) = some 30 := by
      rw [hnone]; rfl
    rw [create_reduce db data gen now .ok uv 30 hurl hu hv (by omega)] at heq
    rcases hcs : chooseShortcode db data gen with r | sc <;> rw [hcs] at heq
    · simp only [Prod.mk.injEq] at heq
      exact absurd heq.1 (ScErr.toResp_ne_created r link exp)
    · simp only [Prod.mk.injEq, CreateResp.created.injEq] at heq
      obtain ⟨⟨hl, he⟩, hdb⟩ := heq
      subst he
      exact ⟨rfl, by omega⟩
  · intro v hsome hvpos link exp db' heq
    have hv : pyToInt ((bget data "validity").getD (.int 30)) = some v := by
      rw [hsome]; rfl
    rw [create_reduce db data gen now .ok uv v hurl hu hv hvpos] at heq
    rcases hcs : chooseShortcode db data gen with r | sc <;> rw [hcs] at heq
    · simp only [Prod.mk.injEq] at heq
      exact absurd heq.1 (ScErr.toResp_ne_created r link exp)
    · simp only [Prod.mk.injEq, CreateResp.created.injEq] at heq
      obtain ⟨⟨hl, he⟩, hdb⟩ := heq
      subst he
      exact ⟨rfl, by omega⟩

/-- Witness for C5: a creation without a validity field expires exactly
1800 seconds (30 minutes) after creation. -/
theorem create_expiry_exact_witness :
    (1800 : Int) = 0 + 60 * 30 ∧ (0 : Int) < 1800 :=
  (create_expiry_exact dbEmpty [("url", JVal.str "http://example.com")]
      genEx 0 (.str "http://example.com") (by decide) (by decide)).1
    (by decide) "http://localhost:5000/aaaaaa" 1800
    ⟨[⟨"aaaaaa", "http://example.com", 0, 1800⟩], []⟩ (by decide)

/-- Counterexample for C6: a fractional validity (`2.5`) is NOT rejected
with 400 — Python `int(2.5)` truncates to 2 and the creation succeeds,
storing a link with a 120-second validity window. -/
theorem create_fractional_validity_accepted :
    create_shorturl dbEmpty
        (some [("url", JVal.str "http://example.com"),
               ("validity", JVal.float 25 1)])
        genEx 0 .ok =
      (.created "http://localhost:5000/aaaaaa" 120,
       ⟨[⟨"aaaaaa", "http://example.com", 0, 120⟩], []⟩) := by
  decide

/-- C6 (amended): a validity that fails Python `int()` conversion (null,
or a string that is not an integer literal) or whose converted value is
non-positive yields 400 with no link created; a fractional number is
truncated toward zero by `int()` rather than rejected. -/
theorem create_validity_check (db : DB) (data : ReqBody)
    (gen : Nat → Nat → String) (now : Int) (commit : CommitResult)
    (uv : JVal)
    (hurl : bget data "url" = some uv)
    (hu : validate_url uv = true) :
    (pyToInt ((bget data "validity").getD (.int 30)) = none →
       create_shorturl db (some data) gen now commit =
         (.invalidValidity, db))
    ∧ (∀ k : Int,
       pyToInt ((bget data "validity").getD (.int 30)) = some k → k ≤ 0 →
       create_shorturl db (some data) gen now commit =
         (.invalidValidity, db))
    ∧ (∀ (m : Int) (e : Nat),
       pyToInt (.float m e) = some (m.tdiv ((10 : Int) ^ e)))
    ∧ CreateResp.invalidValidity.status = 400 := by
  have hne : data.isEmpty = false := bget_isEmpty hurl
  have ht : jTruthy uv = true := validate_url_truthy uv hu
  refine ⟨fun hv => ?_, fun k hv hk => ?_, fun m e => rfl, rfl⟩
  · simp only [create_shorturl, hne, hurl, ht, hu, Bool.and_self,
      Bool.not_true, Bool.false_eq_true, if_false, hv]
  · simp only [create_shorturl, hne, hurl, ht, hu, Bool.and_self,
      Bool.not_true, Bool.false_eq_true, if_false, hv]
    rw [if_pos hk]

/-- Witness for C6 (amended): a non-numeric string validity is a 400. -/
theorem create_validity_check_witness :
    create_shorturl dbEmpty
        (some [("url", JVal.str "http://e.com"), ("validity", JVal.str "abc")])
        genEx 0 .ok =
      (.invalidValidity, dbEmpty) :=
  (create_validity_check dbEmpty
      [("url", JVal.str "http://e.com"), ("validity", JVal.str "abc")]
      genEx 0 .ok (.str "http://e.com") (by decide) (by decide)).1 (by decide)

/-- Counterexample for C7: the candidate `" abc1 "` fails the raw
4–64-alphanumeric format check (it contains spaces), yet the request is
NOT rejected: the handler strips whitespace first and creates the link
under the different shortcode `"abc1"`. -/
theorem create_whitespace_shortcode_accepted :
    SHORTCODE_RE " abc1 " = false ∧
    create_shorturl dbEmpty
        (some [("url", JVal.str "http://example.com"),
               ("shortcode", JVal.str " abc1 ")])
        genEx 0 .ok =
      (.created "http://localhost:5000/abc1" 1800,
       ⟨[⟨"abc1", "http://example.com", 0, 1800⟩], []⟩) :=
  ⟨by decide, by decide⟩

/-- C7 (amended): a supplied custom shortcode is stripped of surrounding
whitespace first; the stripped candidate must match the alphanumeric
4–64 format or the request fails with 400, and a format-valid,
unregistered stripped candidate becomes the created link's shortcode. -/
theorem create_custom_shortcode_format (db : DB) (data : ReqBody)
    (gen : Nat → Nat → String) (now : Int) (commit : CommitResult)
    (uv sv : JVal) (v : Int)
    (hurl : bget data "url" = some uv)
    (hu : validate_url uv = true)
    (hv : pyToInt ((bget data "validity").getD (.int 30)) = some v)
    (hvpos : 0 < v)
    (hsc : bget data "shortcode" = some sv)
    (hst : jTruthy sv = true) :
    (SHORTCODE_RE (pyStrip (pyStr sv)) = false →
       create_shorturl db (some data) gen now commit =
         (.invalidShortcode, db))
    ∧ (SHORTCODE_RE (pyStrip (pyStr sv)) = true →
       occupied db (pyStrip (pyStr sv)) = false →
       create_shorturl db (some data) gen now .ok =
         (.created (shortLinkOf (pyStrip (pyStr sv))) (now + 60 * v),
          { db with shorturls := db.shorturls ++
              [⟨pyStrip (pyStr sv), jStrVal uv, now, now + 60 * v⟩] }))
    ∧ CreateResp.invalidShortcode.status = 400 := by
  refine ⟨fun hre => ?_, fun hre hfree => ?_, rfl⟩
  · rw [create_reduce db data gen now commit uv v hurl hu hv hvpos,
      chooseShortcode_custom db data gen sv hsc hst, if_pos hre]
    rfl
  · rw [create_reduce db data gen now .ok uv v hurl hu hv hvpos,
      chooseShortcode_custom db data gen sv hsc hst,
      if_neg (by simp [hre]), if_neg (by simp [hfree])]

/-- Witness for C7 (amended): a stripped candidate that still fails the
format check (`"ab!"`) is rejected with 400. -/
theorem create_custom_shortcode_format_witness :
    create_shorturl dbEmpty
        (some [("url", JVal.str "http://e.com"), ("shortcode", JVal.str "ab!")])
        genEx 0 .ok =
      (.invalidShortcode, dbEmpty) :=
  (create_custom_shortcode_format dbEmpty
      [("url", JVal.str "http://e.com"), ("shortcode", JVal.str "ab!")]
      genEx 0 .ok (.str "http://e.com") (.str "ab!") 30
      (by decide) (by decide) (by decide) (by decide) (by decide)
      (by decide)).1 (by decide)

/-- The inner retry loop returns its very first draw when that draw is
unoccupied. -/
theorem tryAttempts_first (db : DB) (gen : Nat → Nat → String)
    (len ctr k : Nat) (hfree : occupied db (gen ctr len) = false) :
    tryAttempts db gen len ctr (k + 1) = (some (gen ctr len), ctr + 1) := by
  simp [tryAttempts, hfree]

/-- C10: a present-but-falsy shortcode field (e.g. `""`) is treated as if
no custom shortcode were supplied: the request takes the auto-allocation
path and succeeds with the generated code (here: the first draw, when it
is unoccupied) instead of failing the 4–64 format check with 400. -/
theorem create_falsy_shortcode_auto (db : DB) (data : ReqBody)
    (gen : Nat → Nat → String) (now : Int) (uv sv : JVal) (v : Int)
    (hurl : bget data "url" = some uv)
    (hu : validate_url uv = true)
    (hv : pyToInt ((bget data "validity").getD (.int 30)) = some v)
    (hvpos : 0 < v)
    (hsc : bget data "shortcode" = some sv)
    (hfal : jTruthy sv = false)
    (hfree : occupied db (gen 0 6) = false)
    (hne : gen 0 6 ≠ "") :
    create_shorturl db (some data) gen now .ok =
      (.created (shortLinkOf (gen 0 6)) (now + 60 * v),
       { db with shorturls := db.shorturls ++
           [⟨gen 0 6, jStrVal uv, now, now + 60 * v⟩] }) := by
  have hal : allocate db gen = (some (gen 0 6), 1) := by
    have h6 : tryAttempts db gen 6 0 6 = (some (gen 0 6), 1) :=
      tryAttempts_first db gen 6 0 5 hfree
    simp [allocate, stepLen, h6, pyTruthyOptStr, hne]
  have hcs : chooseShortcode db data gen = .ok (gen 0 6) := by
    simp [chooseShortcode, hsc, hfal, hal, hne]
  rw [create_reduce db data gen now .ok uv v hurl hu hv hvpos, hcs]

/-- The inner retry loop scans past occupied draws: if every one of its
`k` draws is occupied it sets nothing and advances the counter by `k`. -/
theorem tryAttempts_none (db : DB) (gen : Nat → Nat → String) (len : Nat) :
    ∀ (k ctr : Nat),
      (∀ j, j < k → occupied db (gen (ctr + j) len) = true) →
      tryAttempts db gen len ctr k = (none, ctr + k) := by
  intro k
  induction k with
  | zero => intro ctr _; simp [tryAttempts]
  | succ k ih =>
    intro ctr h
    have h0 : occupied db (gen ctr len) = true := by
      have := h 0 (by omega)
      simpa using this
    have hrest : ∀ j, j < k → occupied db (gen (ctr + 1 + j) len) = true := by
      intro j hj
      have e : ctr + 1 + j = ctr + (j + 1) := by omega
      rw [e]
      exact h (j + 1) (by omega)
    simp only [tryAttempts, h0, if_true]
    rw [ih (ctr + 1) hrest]
    congr 1
    omega

/-- The inner retry loop returns the first unoccupied draw. -/
theorem tryAttempts_found (db : DB) (gen : Nat → Nat → String) (len : Nat) :
    ∀ (k j ctr : Nat), j < k →
      (∀ m, m < j → occupied db (gen (ctr + m) len) = true) →
      occupied db (gen (ctr + j) len) = false →
      tryAttempts db gen len ctr k =
        (some (gen (ctr + j) len), ctr + j + 1) := by
  intro k
  induction k with
  | zero => intro j ctr hj; omega
  | succ k ih =>
    intro j ctr hj hocc hfree
    cases j with
    | zero =>
      have hf : occupied db (gen ctr len) = false := by simpa using hfree
      simp [tryAttempts, hf]
    | succ j' =>
      have h0 : occupied db (gen ctr len) = true := by
        have := hocc 0 (Nat.succ_pos j')
        simpa using this
      have e : ∀ m : Nat, ctr + 1 + m = ctr + (m + 1) := fun m => by omega
      have hocc' : ∀ m, m < j' → occupied db (gen (ctr + 1 + m) len) = true := by
        intro m hm
        rw [e m]
        exact hocc (m + 1) (by omega)
      have hfree' : occupied db (gen (ctr + 1 + j') len) = false := by
        rw [e j']
        exact hfree
      simp only [tryAttempts, h0, if_true]
      rw [ih j' (ctr + 1) (by omega) hocc' hfree', e j']

/-- When the first 18 draws are all occupied, the nested loop ends with
the Python `shortcode` variable unset and the counter at 18. -/
theorem allocate_exhausted (db : DB) (gen : Nat → Nat → String)
    (h : ∀ i, i < 18 → occupied db (drawAt gen i) = true) :
    allocate db gen = (none, 18) := by
  have h6 : tryAttempts db gen 6 0 6 = (none, 6) := by
    apply tryAttempts_none
    intro j hj
    have := h j (by omega)
    simpa [drawAt, hj] using this
  have h7 : tryAttempts db gen 7 6 6 = (none, 12) := by
    apply tryAttempts_none
    intro j hj
    have := h (6 + j) (by omega)
    have e1 : ¬(6 + j < 6) := by omega
    have e2 : 6 + j < 12 := by omega
    simpa [drawAt, e1, e2] using this
  have h8 : tryAttempts db gen 8 12 6 = (none, 18) := by
    apply tryAttempts_none
    intro j hj
    have := h (12 + j) (by omega)
    have e1 : ¬(12 + j < 6) := by omega
    have e2 : ¬(12 + j < 12) := by omega
    have e3 : 12 + j < 18 := by omega
    simpa [drawAt, e1, e2, e3] using this
  simp [allocate, stepLen, h6, h7, h8, pyTruthyOptStr]

/-- A draw from a stream of nonempty candidates is nonempty. -/
theorem drawAt_ne (gen : Nat → Nat → String)
    (hgen : ∀ i l, 0 < l → gen i l ≠ "") (i : Nat) : drawAt gen i ≠ "" := by
  unfold drawAt
  apply hgen
  split
  · omega
  · split
    · omega
    · split <;> omega

/-- When draw `i0 < 18` is the first unoccupied one, the nested loop
stops there with it. -/
theorem allocate_found (db : DB) (gen : Nat → Nat → String)
    (hgen : ∀ i l, 0 < l → gen i l ≠ "") (i0 : Nat) (hi : i0 < 18)
    (hfree : occupied db (drawAt gen i0) = false)
    (hocc : ∀ j, j < i0 → occupied db (drawAt gen j) = true) :
    allocate db gen = (some (drawAt gen i0), i0 + 1) := by
  have hne : (drawAt gen i0 != "") = true := by
    simpa using drawAt_ne gen hgen i0
  by_cases c1 : i0 < 6
  · have hd : drawAt gen i0 = gen i0 6 := by simp [drawAt, c1]
    have h6 : tryAttempts db gen 6 0 6 = (some (gen i0 6), i0 + 1) := by
      have hoc : ∀ m, m < i0 → occupied db (gen (0 + m) 6) = true := by
        intro m hm
        have := hocc m hm
        simpa [drawAt, show m < 6 by omega] using this
      have hfr : occupied db (gen (0 + i0) 6) = false := by
        simpa [drawAt, c1] using hfree
      have := tryAttempts_found db gen 6 6 i0 0 c1 hoc hfr
      simpa using this
    rw [hd]
    rw [hd] at hne
    simp [allocate, stepLen, h6, pyTruthyOptStr, hne]
  · have h6 : tryAttempts db gen 6 0 6 = (none, 6) := by
      apply tryAttempts_none
      intro j hj
      have := hocc j (by omega)
      simpa [drawAt, show j < 6 from hj] using this
    by_cases c2 : i0 < 12
    · have hd : drawAt gen i0 = gen i0 7 := by simp [drawAt, c1, c2]
      have e : 6 + (i0 - 6) = i0 := by omega
      have h7 : tryAttempts db gen 7 6 6 = (some (gen i0 7), i0 + 1) := by
        have hoc : ∀ m, m < i0 - 6 → occupied db (gen (6 + m) 7) = true := by
          intro m hm
          have := hocc (6 + m) (by omega)
          have e1 : ¬(6 + m < 6) := by omega
          have e2 : 6 + m < 12 := by omega
          simpa [drawAt, e1, e2] using this
        have hfr : occupied db (gen (6 + (i0 - 6)) 7) = false := by
          rw [e]
          simpa [drawAt, c1, c2] using hfree
        have := tryAttempts_found db gen 7 6 (i0 - 6) 6 (by omega) hoc hfr
        rw [e] at this
        exact this
      rw [hd]
      rw [hd] at hne
      simp [allocate, stepLen, h6, h7, pyTruthyOptStr, hne]
    · have hd : drawAt gen i0 = gen i0 8 := by simp [drawAt, c1, c2, hi]
      have h7 : tryAttempts db gen 7 6 6 = (none, 12) := by
        apply tryAttempts_none
        intro j hj
        have := hocc (6 + j) (by omega)
        have e1 : ¬(6 + j < 6) := by omega
        have e2 : 6 + j < 12 := by omega
        simpa [drawAt, e1, e2] using this
      have e : 12 + (i0 - 12) = i0 := by omega
      have h8 : tryAttempts db gen 8 12 6 = (some (gen i0 8), i0 + 1) := by
        have hoc : ∀ m, m < i0 - 12 → occupied db (gen (12 + m) 8) = true := by
          intro m hm
          have := hocc (12 + m) (by omega)
          have e1 : ¬(12 + m < 6) := by omega
          have e2 : ¬(12 + m < 12) := by omega
          have e3 : 12 + m < 18 := by omega
          simpa [drawAt, e1, e2, e3] using this
        have hfr : occupied db (gen (12 + (i0 - 12)) 8) = false := by
          rw [e]
          simpa [drawAt, c1, c2, hi] using hfree
        have := tryAttempts_found db gen 8 6 (i0 - 12) 12 (by omega) hoc hfr
        rw [e] at this
        exact this
      rw [hd]
      rw [hd] at hne
      simp [allocate, stepLen, h6, h7, h8, pyTruthyOptStr, hne]

/-- Reduction of the auto-allocation branch of the selection step. -/
theorem chooseShortcode_auto (db : DB) (data : ReqBody)
    (gen : Nat → Nat → String)
    (hfal : jTruthy ((bget data "shortcode").getD .null) = false) :
    chooseShortcode db data gen =
      match allocate db gen with
      | (some c, ctr) => if c == "" then finalAttempt db gen ctr else .ok c
      | (none, ctr) => finalAttempt db gen ctr := by
  simp only [chooseShortcode, hfal, Bool.false_eq_true, if_false]

/-- A real draw of length `l` has exactly `l` characters... -/
theorem generate_shortcode_length (r : Nat → Fin ALPHABET.length)
    (l : Nat) : (generate_shortcode r l).data.length = l := by
  simp [generate_shortcode]

/-- ...hence is nonempty whenever `l` is positive, which justifies the
nonempty-draw hypothesis placed on abstract draw streams. -/
theorem generate_shortcode_ne_empty (r : Nat → Fin ALPHABET.length)
    (l : Nat) (hl : 0 < l) : generate_shortcode r l ≠ "" := by
  intro h
  have := generate_shortcode_length r l
  rw [h] at this
  simp at this
  omega

/-- The example stream only produces nonempty draws at positive length. -/
theorem genEx_ne_empty : ∀ i l, 0 < l → genEx i l ≠ "" := by
  intro i l hl h
  have hdata : List.replicate l (Char.ofNat (97 + i % 26)) = [] :=
    congrArg String.data h
  rw [List.replicate_eq_nil_iff] at hdata
  omega

/-- C4: with no custom shortcode, allocation examines random draws at
length 6 then 7 then 8, at most 6 draws per length, stopping at the
first unoccupied candidate, which becomes the created shortcode; if all
18 are occupied, one final draw at length 10 is made, and if it too is
occupied the request fails with 500 (AllocationExhausted). -/
theorem create_auto_allocation (db : DB) (data : ReqBody)
    (gen : Nat → Nat → String) (now : Int) (commit : CommitResult)
    (uv : JVal) (v : Int)
    (hgen : ∀ i l, 0 < l → gen i l ≠ "")
    (hurl : bget data "url" = some uv)
    (hu : validate_url uv = true)
    (hv : pyToInt ((bget data "validity").getD (.int 30)) = some v)
    (hvpos : 0 < v)
    (hfal : jTruthy ((bget data "shortcode").getD .null) = false) :
    ((∀ i, i < 19 → occupied db (drawAt gen i) = true) →
       create_shorturl db (some data) gen now commit =
         (.allocationExhausted, db))
    ∧ (∀ i0, i0 < 19 → occupied db (drawAt gen i0) = false →
       (∀ j, j < i0 → occupied db (drawAt gen j) = true) →
       create_shorturl db (some data) gen now .ok =
         (.created (shortLinkOf (drawAt gen i0)) (now + 60 * v),
          { db with shorturls := db.shorturls ++
              [⟨drawAt gen i0, jStrVal uv, now, now + 60 * v⟩] }))
    ∧ CreateResp.allocationExhausted.status = 500 := by
  refine ⟨fun hall => ?_, fun i0 hi hfree hocc => ?_, rfl⟩
  · have h18 : occupied db (gen 18 10) = true := by
      have := hall 18 (by omega)
      simpa [drawAt] using this
    have hcs : chooseShortcode db data gen = .error .allocationExhausted := by
      rw [chooseShortcode_auto db data gen hfal,
        allocate_exhausted db gen (fun i hi => hall i (by omega))]
      simp [finalAttempt, h18]
    rw [create_reduce db data gen now commit uv v hurl hu hv hvpos, hcs]
    rfl
  · by_cases hlt : i0 < 18
    · have hcs : chooseShortcode db data gen = .ok (drawAt gen i0) := by
        rw [chooseShortcode_auto db data gen hfal,
          allocate_found db gen hgen i0 hlt hfree hocc]
        have hne : (drawAt gen i0 == "") = false := by
          simpa using drawAt_ne gen hgen i0
        simp [hne]
      rw [create_reduce db data gen now .ok uv v hurl hu hv hvpos, hcs]
    · have h18 : i0 = 18 := by omega
      subst h18
      have hf : occupied db (gen 18 10) = false := by
        simpa [drawAt] using hfree
      have hcs : chooseShortcode db data gen = .ok (drawAt gen 18) := by
        rw [chooseShortcode_auto db data gen hfal,
          allocate_exhausted db gen (fun i hi => hocc i (by omega))]
        simp [finalAttempt, hf, drawAt]
      rw [create_reduce db data gen now .ok uv v hurl hu hv hvpos, hcs]

/-- Witness for C4: over an empty store the very first draw (index 0,
length 6) is free and becomes the created link's shortcode. -/
theorem create_auto_allocation_witness :
    create_shorturl dbEmpty (some [("url", JVal.str "http://e.com")])
        genEx 0 .ok =
      (.created (shortLinkOf (drawAt genEx 0)) (0 + 60 * 30),
       { dbEmpty with shorturls := dbEmpty.shorturls ++
           [⟨drawAt genEx 0, jStrVal (.str "http://e.com"), 0, 0 + 60 * 30⟩] }) :=
  (create_auto_allocation dbEmpty [("url", JVal.str "http://e.com")]
      genEx 0 .ok (.str "http://e.com") 30 genEx_ne_empty
      (by decide) (by decide) (by decide) (by decide) (by decide)).2.1
    0 (by decide) (by decide) (fun j hj => absurd hj (by omega))

/-- Witness for C10: an empty-string shortcode auto-allocates. -/
theorem create_falsy_shortcode_auto_witness :
    create_shorturl dbEmpty
        (some [("url", JVal.str "http://e.com"), ("shortcode", JVal.str "")])
        genEx 0 .ok =
      (.created "http://localhost:5000/aaaaaa" 1800,
       ⟨[⟨"aaaaaa", "http://e.com", 0, 1800⟩], []⟩) :=
  create_falsy_shortcode_auto dbEmpty
    [("url", JVal.str "http://e.com"), ("shortcode", JVal.str "")]
    genEx 0 (.str "http://e.com") (.str "") 30
    (by decide) (by decide) (by decide) (by decide) (by decide)
    (by decide) (by decide) (by decide)

/-- C8: stats on a known shortcode report `clicks` equal to the number
of Click rows stored for it — rows appended one per successful live
redirect whose commit succeeded — with `clickData` exactly those rows
(a permutation of the store's), sorted by timestamp ascending; an
unknown shortcode yields 404. -/
theorem stats_click_history (db : DB) (code : String) :
    (findShort db code = none → get_shorturl_stats db code = .notFound)
    ∧ (∀ s, findShort db code = some s →
        get_shorturl_stats db code =
          .ok ⟨(db.clicks.filter fun c => c.shortcode == code).length,
               s.original_url, s.created_at, s.expiry,
               (clicksSorted db code).map clickEntry⟩
        ∧ ((clicksSorted db code).map clickEntry).Pairwise
            (fun a b => a.timestamp ≤ b.timestamp)
        ∧ List.Perm (clicksSorted db code)
            (db.clicks.filter fun c => c.shortcode == code))
    ∧ (∀ s now ctx, findShort db code = some s → now ≤ s.expiry →
        ((redirect_to_original db code now ctx .ok).2.clicks.filter
            fun c => c.shortcode == code).length =
          (db.clicks.filter fun c => c.shortcode == code).length + 1) := by
  refine ⟨fun h => ?_, fun s h => ?_, fun s now ctx h hlive => ?_⟩
  · simp [get_shorturl_stats, h]
  · have hperm : List.Perm (clicksSorted db code)
        (db.clicks.filter fun c => c.shortcode == code) :=
      List.mergeSort_perm _ _
    refine ⟨?_, ?_, hperm⟩
    · have hlen : ((clicksSorted db code).map clickEntry).length =
          (db.clicks.filter fun c => c.shortcode == code).length := by
        rw [List.length_map]
        exact hperm.length_eq
      simp only [get_shorturl_stats, h, hlen]
    · have hs := @List.sorted_mergeSort Click
        (fun a b : Click => decide (a.timestamp ≤ b.timestamp))
        (by intro a b c hab hbc
            simp only [decide_eq_true_eq] at hab hbc ⊢
            omega)
        (by intro a b
            by_cases hab : a.timestamp ≤ b.timestamp
            · simp [hab]
            · have hba : b.timestamp ≤ a.timestamp := by omega
              simp [hba])
        (db.clicks.filter fun c => c.shortcode == code)
      have hP : (clicksSorted db code).Pairwise
          (fun a b => a.timestamp ≤ b.timestamp) := by
        have := hs.imp (fun {a b} hab => by
          simpa using of_decide_eq_true hab)
        simpa [clicksSorted] using this
      exact hP.map clickEntry (fun a b hab => hab)
  · simp only [redirect_to_original, h]
    rw [if_neg (by omega)]
    simp [List.filter_append]

/-- Witness for C8: one stored click on `"abcd"` is reported with
`clicks = 1` and a sorted click list. -/
theorem stats_click_history_witness :
    get_shorturl_stats dbClick "abcd" =
      .ok ⟨(dbClick.clicks.filter fun c => c.shortcode == "abcd").length,
           "http://x.com", 0, 100,
           (clicksSorted dbClick "abcd").map clickEntry⟩
    ∧ ((clicksSorted dbClick "abcd").map clickEntry).Pairwise
        (fun a b => a.timestamp ≤ b.timestamp)
    ∧ List.Perm (clicksSorted dbClick "abcd")
        (dbClick.clicks.filter fun c => c.shortcode == "abcd") :=
  (stats_click_history dbClick "abcd").2.1
    ⟨"abcd", "http://x.com", 0, 100⟩ (by decide)

/-- Every digit character is one of the ten decimal digits. -/
theorem digitChar_mem (n : Nat) :
    digitChar n ∈ ['0', '1', '2', '3', '4', '5', '6', '7', '8', '9'] := by
  unfold digitChar
  have h : n % 10 < 10 := Nat.mod_lt _ (by omega)
  generalize hm : n % 10 = m
  rw [hm] at h
  interval_cases m <;> decide

/-- The digit renderer never emits a plus sign. -/
theorem plus_notin_natDigitsAux (fuel : Nat) :
    ∀ n, ('+' : Char) ∉ natDigitsAux fuel n := by
  induction fuel with
  | zero => intro n; simp [natDigitsAux]
  | succ fuel ih =>
    intro n
    simp only [natDigitsAux]
    by_cases h : n < 10
    · simp only [if_pos h, List.mem_singleton]
      intro heq
      have hd := digitChar_mem n
      rw [← heq] at hd
      exact absurd hd (by decide)
    · simp only [if_neg h]
      intro hmem
      rcases List.mem_append.mp hmem with h1 | h2
      · exact ih (n / 10) h1
      · rw [List.mem_singleton] at h2
        have hd := digitChar_mem n
        rw [← h2] at hd
        exact absurd hd (by decide)

/-- Zero-padded numbers never contain a plus sign. -/
theorem plus_notin_padNum (w n : Nat) : ('+' : Char) ∉ padNum w n := by
  unfold padNum natDigits
  intro h
  rcases List.mem_append.mp h with h1 | h2
  · have := List.eq_of_mem_replicate h1
    exact absurd this (by decide)
  · exact plus_notin_natDigitsAux (n + 1) n h2

/-- The date/time core of an isoformat never contains a plus sign (only
digits and the separators `-`, `T`, `:`, `.`). -/
theorem plus_notin_isoCore (dt : PyDateTime) : ('+' : Char) ∉ isoCore dt := by
  have hy := plus_notin_padNum 4 dt.year
  have hmo := plus_notin_padNum 2 dt.month
  have hd := plus_notin_padNum 2 dt.day
  have hh := plus_notin_padNum 2 dt.hour
  have hmi := plus_notin_padNum 2 dt.minute
  have hs := plus_notin_padNum 2 dt.second
  have hus := plus_notin_padNum 6 dt.microsecond
  have c1 : ('+' : Char) ≠ '-' := by decide
  have c2 : ('+' : Char) ≠ 'T' := by decide
  have c3 : ('+' : Char) ≠ ':' := by decide
  have c4 : ('+' : Char) ≠ '.' := by decide
  unfold isoCore
  split <;>
    simp [List.mem_append, hy, hmo, hd, hh, hmi, hs, hus, c1, c2, c3, c4]

/-- Replacing `+00:00` in a string of the shape `body ++ "+00:00"` where
the body is plus-free rewrites exactly the suffix. -/
theorem replaceAllAux_no_plus (rep : List Char) :
    ∀ l : List Char, ('+' : Char) ∉ l → ∀ fuel, l.length + 6 ≤ fuel →
      replaceAllAux utcSuffix rep fuel (l ++ utcSuffix) = l ++ rep := by
  intro l
  induction l with
  | nil =>
    intro _ fuel hfuel
    obtain ⟨f, rfl⟩ : ∃ f, fuel = f + 1 := ⟨fuel - 1, by omega⟩
    have h1 : replaceAllAux utcSuffix rep (f + 1)
        (([] : List Char) ++ utcSuffix) =
        rep ++ replaceAllAux utcSuffix rep f [] := rfl
    have h2 : replaceAllAux utcSuffix rep f ([] : List Char) = [] := by
      cases f <;> rfl
    rw [h1, h2, List.append_nil, List.nil_append]
  | cons c l ih =>
    intro hl fuel hfuel
    obtain ⟨f, rfl⟩ : ∃ f, fuel = f + 1 := ⟨fuel - 1, by omega⟩
    have hc : c ≠ '+' := by
      intro h
      exact hl (h ▸ List.mem_cons_self c l)
    have hl' : ('+' : Char) ∉ l := fun h => hl (List.mem_cons_of_mem c h)
    have hpre : utcSuffix.isPrefixOf (c :: (l ++ utcSuffix)) = false := by
      show List.isPrefixOf ('+' :: ['0', '0', ':', '0', '0'])
        (c :: (l ++ utcSuffix)) = false
      rw [List.isPrefixOf_cons₂]
      rw [show ('+' == c) = false from beq_eq_false_iff_ne.mpr (Ne.symm hc)]
      rw [Bool.false_and]
    have step : replaceAllAux utcSuffix rep (f + 1) ((c :: l) ++ utcSuffix) =
        c :: replaceAllAux utcSuffix rep f (l ++ utcSuffix) := by
      simp only [List.cons_append, replaceAllAux, List.append_eq, hpre,
        Bool.false_eq_true, if_false]
    have hfl : l.length + 6 ≤ f := by
      have := hfuel
      simp only [List.length_cons] at this
      omega
    rw [step, ih hl' f hfl, List.cons_append]

/-- The character list underlying a constructed string. -/
theorem string_data_mk (l : List Char) : (String.mk l).data = l := rfl

/-- C9: `to_iso_z` — applied in the source to every timestamp emitted in
a response (creation expiry, stats createdAt/expiry, clickData entries),
on aware and on naive datetimes alike — produces a string that ends in a
literal `Z` and contains no `+00:00` occurrence. -/
theorem to_iso_z_utc_suffix (dt : PyDateTime) :
    ∃ l, (to_iso_z dt).data = l ++ ['Z'] ∧ ('+' : Char) ∉ l ∧
      ¬List.IsInfix utcSuffix (to_iso_z dt).data := by
  have hnp : ('+' : Char) ∉ isoCore { dt with utc := true } :=
    plus_notin_isoCore _
  have hiso : isoformat { dt with utc := true } =
      isoCore { dt with utc := true } ++ utcSuffix := by
    unfold isoformat
    simp only [show ({ dt with utc := true } : PyDateTime).utc = true from rfl,
      if_true]
  have hfuel : (isoCore { dt with utc := true }).length + 6 ≤
      (isoCore { dt with utc := true } ++ utcSuffix).length := by
    rw [List.length_append]
    have h6 : utcSuffix.length = 6 := rfl
    omega
  have hdata : (to_iso_z dt).data =
      isoCore { dt with utc := true } ++ ['Z'] := by
    have hz : (to_iso_z dt).data =
        replaceAll utcSuffix ['Z'] (isoformat { dt with utc := true }) :=
      string_data_mk _
    rw [hz, hiso]
    unfold replaceAll
    exact replaceAllAux_no_plus ['Z'] (isoCore { dt with utc := true })
      hnp _ hfuel
  refine ⟨isoCore { dt with utc := true }, hdata, hnp, ?_⟩
  rintro ⟨s, t, hst⟩
  have hplus : ('+' : Char) ∈ (to_iso_z dt).data := by
    rw [← hst]
    have hmem : ('+' : Char) ∈ utcSuffix := by decide
    simp [List.mem_append, hmem]
  rw [hdata] at hplus
  rcases List.mem_append.mp hplus with h | h
  · exact hnp h
  · rw [List.mem_singleton] at h
    exact absurd h (by decide)

end Shortener
